import Mathlib

/-!
Verification of the MicroPython hardware emulator's state store and
peripheral façades (`mock/state.py`, `mock/micropython/machine.py`,
`mock/micropython/neopixel.py`).

The Python module-level dictionaries are modelled as an explicit
`EmuState` record threaded through every operation; Python `dict`s become
association lists whose keys stay unique by construction.  Wall-clock
time (`time.time() * 1000`, a float of milliseconds) is passed to
`update_pin` as an explicit rational `now` argument.  Every store
operation returns the mutated state together with the list of events it
hands to `_emit`, in emission order.
-/

namespace Emu

/-- Lookup in an association list, mirroring Python `dict.get`. -/
def alGet {α β : Type} [DecidableEq α] (l : List (α × β)) (k : α) : Option β :=
  match l with
  | [] => none
  | (k', v) :: rest => if k' = k then some v else alGet rest k

/-- Insert-or-overwrite in an association list, mirroring Python
`d[k] = v`.  The old binding for `k` (if any) is dropped, so keys stay
unique. -/
def alSet {α β : Type} [DecidableEq α] (l : List (α × β)) (k : α) (v : β) :
    List (α × β) :=
  (k, v) :: l.filter (fun p => p.1 ≠ k)

/-- `PinState` dataclass from `mock/state.py`. -/
structure PinState where
  identifier : String
  mode : String
  value : Int
deriving Repr, DecidableEq

/-- Events passed to `_emit` by the store and the façades, in the shape
of the Python event dictionaries that matter to the claims.  Events
whose payload no claim inspects are collapsed into `generic` carrying
only their `type` string. -/
inductive Event where
  | reset
  | pinRegister (pin : String) (mode : String) (value : Int)
  | pinUpdate (pin : String) (value : Int) (mode : Option String)
  | adcSet (pin : String) (value : Int)
  | i2cDevicesSet (bus : Int) (addresses : List Int)
  | i2cDeviceRegistered (bus : Int) (addr : Int)
  | i2cAutoRespondSet (enabled : Bool)
  | i2cResponseSet (bus : Int) (addr : Int) (memaddr : Option Int) (data : List Nat)
  | pwmUpdate (pin : String) (freq : Nat) (duty : Nat)
  | neopixelWrite (pin : String) (pixels : List (List Nat))
  | generic (eventType : String)
deriving Repr, DecidableEq

/-- The module-level mutable tables of `mock/state.py`.  Byte strings
are lists of byte values. -/
structure EmuState where
  pins : List (String × PinState)
  adcValues : List (String × Int)
  i2cDevices : List (Int × List Int)
  i2cResponses : List (String × List Nat)
  i2cAutoRespond : Bool
  lastPinEmit : List (String × ℚ)
deriving Repr, DecidableEq

/-- Module state right after import: every table empty, auto-respond
enabled. -/
def initState : EmuState :=
  { pins := []
    adcValues := []
    i2cDevices := []
    i2cResponses := []
    i2cAutoRespond := true
    lastPinEmit := [] }

/-- `_PIN_EMIT_THROTTLE_MS = 1`. -/
def PIN_EMIT_THROTTLE_MS : ℚ := 1

/-- `state.reset()`: clear every table, re-enable auto-respond, clear
the throttle ledger, emit one `reset` event. -/
def reset (_s : EmuState) : EmuState × List Event :=
  ({ pins := []
     adcValues := []
     i2cDevices := []
     i2cResponses := []
     i2cAutoRespond := true
     lastPinEmit := [] },
   [Event.reset])

/-- `state.register_pin(identifier, mode, initial)`.  Python coerces the
optional `initial` by truthiness: `value = 1 if initial else 0`. -/
def register_pin (s : EmuState) (identifier : String) (mode : String)
    (initial : Option Int) : EmuState × List Event :=
  let value : Int :=
    match initial with
    | none => 0
    | some i => if i = 0 then 0 else 1
  ({ s with pins := alSet s.pins identifier ⟨identifier, mode, value⟩ },
   [Event.pinRegister identifier mode value])

/-- `state.update_pin(identifier, value, mode=None)` at wall-clock time
`now` (milliseconds, the value of `time.time() * 1000`).  Stores the
value (and mode if given) unconditionally; emits a `pin_update` event
only when at least the throttle window has passed since the last
emission for this identifier, updating the throttle ledger then. -/
def update_pin (s : EmuState) (now : ℚ) (identifier : String) (value : Int)
    (mode : Option String) : EmuState × List Event :=
  let pins' :=
    match alGet s.pins identifier with
    | none =>
      let m := match mode with
               | none => "OUT"
               | some md => if md = "" then "OUT" else md
      alSet s.pins identifier ⟨identifier, m, value⟩
    | some st =>
      let m := match mode with
               | none => st.mode
               | some md => md
      alSet s.pins identifier ⟨st.identifier, m, value⟩
  let lastEmit := (alGet s.lastPinEmit identifier).getD 0
  if PIN_EMIT_THROTTLE_MS > 0 ∧ now - lastEmit < PIN_EMIT_THROTTLE_MS then
    ({ s with pins := pins' }, [])
  else
    ({ s with pins := pins', lastPinEmit := alSet s.lastPinEmit identifier now },
     [Event.pinUpdate identifier value mode])

/-- `state.get_pin_value(identifier)`: stored value, or 0 when the pin
was never registered. -/
def get_pin_value (s : EmuState) (identifier : String) : Int :=
  match alGet s.pins identifier with
  | some st => st.value
  | none => 0

/-- `state.set_adc_value(pin_id, value)`: clamp into [0, 65535], store,
emit `adc_set`. -/
def set_adc_value (s : EmuState) (pin_id : String) (value : Int) :
    EmuState × List Event :=
  let v := max 0 (min 65535 value)
  ({ s with adcValues := alSet s.adcValues pin_id v },
   [Event.adcSet pin_id v])

/-- `state.clear_adc_value(pin_id)`. -/
def clear_adc_value (s : EmuState) (pin_id : String) : EmuState × List Event :=
  ({ s with adcValues := s.adcValues.filter (fun p => p.1 ≠ pin_id) }, [])

/-- `state.get_adc_value(pin_id)`. -/
def get_adc_value (s : EmuState) (pin_id : String) : Option Int :=
  alGet s.adcValues pin_id

/-- `state.get_i2c_devices(bus_id)`: the registered list, or the fixed
four-address fallback when that list is empty (or absent) and
auto-respond is enabled. -/
def get_i2c_devices (s : EmuState) (bus_id : Int) : List Int :=
  let devices := (alGet s.i2cDevices bus_id).getD []
  if devices = [] ∧ s.i2cAutoRespond then
    [0x68, 0x3C, 0x76, 0x27]
  else
    devices

/-- `state.set_i2c_devices(bus_id, addresses)`. -/
def set_i2c_devices (s : EmuState) (bus_id : Int) (addresses : List Int) :
    EmuState × List Event :=
  ({ s with i2cDevices := alSet s.i2cDevices bus_id addresses },
   [Event.i2cDevicesSet bus_id addresses])

/-- `state.register_i2c_device(bus_id, addr)`. -/
def register_i2c_device (s : EmuState) (bus_id : Int) (addr : Int) :
    EmuState × List Event :=
  let current := (alGet s.i2cDevices bus_id).getD []
  let updated := if addr ∈ current then current else current ++ [addr]
  ({ s with i2cDevices := alSet s.i2cDevices bus_id updated },
   [Event.i2cDeviceRegistered bus_id addr])

/-- `state.set_i2c_auto_respond(enabled)`. -/
def set_i2c_auto_respond (s : EmuState) (enabled : Bool) :
    EmuState × List Event :=
  ({ s with i2cAutoRespond := enabled },
   [Event.i2cAutoRespondSet enabled])

/-- The composite key string `f"{bus_id}_{addr}_{memaddr}"` (or without
the memory-address part when it is `None`). -/
def i2cKey (bus_id addr : Int) (memaddr : Option Int) : String :=
  match memaddr with
  | none => toString bus_id ++ "_" ++ toString addr
  | some m => toString bus_id ++ "_" ++ toString addr ++ "_" ++ toString m

/-- `state.get_i2c_response(bus_id, addr, nbytes, memaddr=None)`.

The result is `none` exactly when the Python code raises: on the
WHO_AM_I auto-respond branch `bytes([addr])` demands `0 <= addr < 256`
and raises `ValueError` otherwise.  `b'\x00' * (nbytes - 1)` for
`nbytes = 0` is the empty byte string, which truncated Nat subtraction
reproduces. -/
def get_i2c_response (s : EmuState) (bus_id addr : Int) (nbytes : Nat)
    (memaddr : Option Int) : Option (List Nat) :=
  let response0 := alGet s.i2cResponses (i2cKey bus_id addr memaddr)
  let response : Option (List Nat) :=
    match response0 with
    | some r => some r
    | none =>
      if s.i2cAutoRespond then
        if memaddr = some 0x75 ∨ memaddr = some 0x00 then
          if 0 ≤ addr ∧ addr < 256 then
            some ([addr.toNat] ++ List.replicate (nbytes - 1) 0)
          else
            none
        else
          some ([0x01] ++ List.replicate (nbytes - 1) 0)
      else
        some (List.replicate nbytes 0)
  response.map (fun r => ((r ++ List.replicate (nbytes - r.length) 0).take nbytes))

/-- `state.set_i2c_response(bus_id, addr, data, memaddr=None)`. -/
def set_i2c_response (s : EmuState) (bus_id addr : Int) (data : List Nat)
    (memaddr : Option Int) : EmuState × List Event :=
  ({ s with i2cResponses := alSet s.i2cResponses (i2cKey bus_id addr memaddr) data },
   [Event.i2cResponseSet bus_id addr memaddr data])

/-- `state.emit_event(event_type, data)` with the payload abstracted. -/
def emit_event (s : EmuState) (eventType : String) : EmuState × List Event :=
  (s, [Event.generic eventType])

/-! ## Pin façade (`machine.py`) -/

/-- `Pin._MODE_NAMES.get(mode, "OUT")` for the constants
`IN = 0, OUT = 1, PULL_UP = 2, PULL_DOWN = 3`. -/
def modeName (mode : Int) : String :=
  if mode = 0 then "IN"
  else if mode = 1 then "OUT"
  else if mode = 2 then "PULL_UP"
  else if mode = 3 then "PULL_DOWN"
  else "OUT"

/-- `Pin.value(val)` for `val` not `None` (a write): normalise by
truthiness, then `update_pin(id, v, "OUT")`. -/
def pinWrite (s : EmuState) (now : ℚ) (id : String) (val : Int) :
    EmuState × List Event :=
  update_pin s now id (if val = 0 then 0 else 1) (some "OUT")

/-- `Pin.value()` with no argument (a read): fetch the stored value,
then `update_pin(id, current, "IN")`, and return the fetched value. -/
def pinValueRead (s : EmuState) (now : ℚ) (id : String) :
    (EmuState × List Event) × Int :=
  let current := get_pin_value s id
  (update_pin s now id current (some "IN"), current)

/-- `Pin.__init__(id, mode, pull, value)`: registers the pin (passing
`value if value is not None else 0` as the initial), then calls
`self.value(value)` when `value` is not `None`. -/
def pinConstruct (s : EmuState) (now : ℚ) (id : String) (mode : Int)
    (value : Option Int) : EmuState × List Event :=
  let r1 := register_pin s id (modeName mode) (some (value.getD 0))
  match value with
  | none => r1
  | some v =>
    let r2 := pinWrite r1.1 now id v
    (r2.1, r1.2 ++ r2.2)

/-- `Pin.toggle()`: `self.value(0 if self.value() else 1)`.  The inner
read happens at `nowRead`, the subsequent write at `nowWrite`. -/
def pinToggle (s : EmuState) (nowRead nowWrite : ℚ) (id : String) :
    EmuState × List Event :=
  let r1 := pinValueRead s nowRead id
  let r2 := pinWrite r1.1.1 nowWrite id (if r1.2 = 0 then 1 else 0)
  (r2.1, r1.1.2 ++ r2.2)

/-! ## PWM façade (`machine.py`)

Only the duty-cycle arithmetic is relevant to the claims, so the PWM
functions below compute the stored `_duty_u16` and the returned values;
`freq` and duty arguments are the nonnegative integers the claims range
over, with Lean's floor division coinciding with Python `//` there. -/

/-- `PWM.duty_u16(value)` setter: `max(0, min(65535, value))`. -/
def pwmDutyU16Set (value : Nat) : Nat :=
  max 0 (min 65535 value)

/-- `PWM.duty_ns(value)` setter: computes the new `_duty_u16`.
`period_ns = 1_000_000_000 // freq if freq > 0 else 1`; the subsequent
`(value * 65535) // period_ns` raises `ZeroDivisionError` when
`period_ns = 0` (i.e. `freq > 1_000_000_000`), modelled as `none`. -/
def pwmDutyNsSet (freq value : Nat) : Option Nat :=
  let period_ns := if freq > 0 then 1000000000 / freq else 1
  if period_ns = 0 then none
  else some ((value * 65535) / period_ns)

/-- `PWM.duty_ns()` getter:
`period_ns = 1_000_000_000 // freq if freq > 0 else 0`, result
`(duty_u16 * period_ns) // 65535`. -/
def pwmDutyNsGet (freq duty_u16 : Nat) : Nat :=
  let period_ns := if freq > 0 then 1000000000 / freq else 0
  (duty_u16 * period_ns) / 65535

/-! ## NeoPixel façade (`neopixel.py`)

`neopixel.py` does `import state` and calls `state.emit(...)`.  At run
time `state` is `mock/state.py` (the runner imports it first and
`sys.modules` caches it), whose module attributes are listed below;
`emit` is not among them, so those calls raise `AttributeError`, which
the façade functions surface as `Except.error`. -/

/-- The functions defined at module level by `mock/state.py`. -/
def stateModuleFunctions : List String :=
  ["set_reporter", "clear_reporters", "reset", "register_pin",
   "update_pin", "get_pin_value", "snapshot", "get_adc_value",
   "set_adc_value", "clear_adc_value", "get_i2c_devices",
   "set_i2c_devices", "register_i2c_device", "set_i2c_auto_respond",
   "get_i2c_response", "set_i2c_response", "emit_event",
   "emit_pwm_update", "emit_neopixel_init", "emit_neopixel_write"]

/-- The instance state of a `NeoPixel` object: pin id, pixel count `n`,
bytes per pixel `bpp`, and the `_pixels` list (each pixel a tuple of
`bpp` channel values). -/
structure NeoPixelStrip where
  pinId : String
  n : Nat
  bpp : Nat
  pixels : List (List Nat)
deriving Repr, DecidableEq

/-- `NeoPixel.__init__(pin, n, bpp)`: builds the zeroed pixel list,
then calls `state.emit("neopixel_init", ...)`, which raises
`AttributeError` because module `state` has no attribute `emit`. -/
def neopixelMk (pinId : String) (n bpp : Nat) : Except String NeoPixelStrip :=
  let strip : NeoPixelStrip :=
    ⟨pinId, n, bpp, List.replicate n (if bpp = 3 then [0, 0, 0] else [0, 0, 0, 0])⟩
  if stateModuleFunctions.contains "emit" then Except.ok strip
  else Except.error "AttributeError: module state has no attribute emit"

/-- `NeoPixel.fill(color)`: raises `ValueError` on a tuple-length
mismatch, otherwise assigns `tuple(color)` to every slot. -/
def neopixelFill (np : NeoPixelStrip) (color : List Nat) :
    Except String NeoPixelStrip :=
  if color.length ≠ np.bpp then
    Except.error "ValueError: color tuple length mismatch"
  else
    Except.ok { np with pixels := List.replicate np.n color }

/-- `NeoPixel.write()`: calls `state.emit("neopixel_write", ...)`, which
raises `AttributeError`; were `emit` present, it would produce the one
whole-array event. -/
def neopixelWriteOp (np : NeoPixelStrip) : Except String (List Event) :=
  if stateModuleFunctions.contains "emit" then
    Except.ok [Event.neopixelWrite np.pinId np.pixels]
  else
    Except.error "AttributeError: module state has no attribute emit"

/-! ## Store operations as a step relation -/

/-- The state-mutating operations of the store, each carrying its
arguments (`update_pin` also carries its wall-clock time). -/
inductive StoreOp where
  | opReset
  | opRegisterPin (id : String) (mode : String) (initial : Option Int)
  | opUpdatePin (now : ℚ) (id : String) (value : Int) (mode : Option String)
  | opSetAdcValue (id : String) (value : Int)
  | opClearAdcValue (id : String)
  | opSetI2cDevices (bus : Int) (addresses : List Int)
  | opRegisterI2cDevice (bus : Int) (addr : Int)
  | opSetI2cAutoRespond (enabled : Bool)
  | opSetI2cResponse (bus : Int) (addr : Int) (data : List Nat) (memaddr : Option Int)
  | opEmitEvent (eventType : String)

/-- Apply one store operation. -/
def applyOp (s : EmuState) : StoreOp → EmuState × List Event
  | StoreOp.opReset => reset s
  | StoreOp.opRegisterPin id mode initial => register_pin s id mode initial
  | StoreOp.opUpdatePin now id value mode => update_pin s now id value mode
  | StoreOp.opSetAdcValue id value => set_adc_value s id value
  | StoreOp.opClearAdcValue id => clear_adc_value s id
  | StoreOp.opSetI2cDevices bus addresses => set_i2c_devices s bus addresses
  | StoreOp.opRegisterI2cDevice bus addr => register_i2c_device s bus addr
  | StoreOp.opSetI2cAutoRespond enabled => set_i2c_auto_respond s enabled
  | StoreOp.opSetI2cResponse bus addr data memaddr => set_i2c_response s bus addr data memaddr
  | StoreOp.opEmitEvent eventType => emit_event s eventType

/-- The four pin mode names of the data model. -/
def validMode (m : String) : Bool :=
  m = "IN" || m = "OUT" || m = "PULL_UP" || m = "PULL_DOWN"

/-- The spec's PinState invariant on a pin table: every stored value is
0 or 1, every stored mode is one of the four enumerated names, and the
identifiers key the table uniquely. -/
def pinTableInv (l : List (String × PinState)) : Prop :=
  (∀ p ∈ l, (p.2.value = 0 ∨ p.2.value = 1) ∧ validMode p.2.mode = true)
  ∧ (l.map Prod.fst).Nodup

/-- The PinState invariant of a store state. -/
def pinsInv (s : EmuState) : Prop :=
  pinTableInv s.pins

instance (l : List (String × PinState)) : Decidable (pinTableInv l) := by
  unfold pinTableInv; infer_instance

instance (s : EmuState) : Decidable (pinsInv s) := by
  unfold pinsInv; infer_instance

/-- Arguments under which an operation respects the pin data model:
`update_pin` is given a binary value and either no mode or one of the
four names; `register_pin` is given one of the four names. -/
def opArgsOK : StoreOp → Prop
  | StoreOp.opRegisterPin _ mode _ => validMode mode = true
  | StoreOp.opUpdatePin _ _ value mode =>
      (value = 0 ∨ value = 1)
      ∧ (mode = none ∨ ∃ m, mode = some m ∧ validMode m = true)
  | _ => True

/-- A sequence of `update_pin` calls for one identifier, each a
(timestamp, value) pair; returns the final state and the concatenated
emissions. -/
def update_pin_seq (id : String) : EmuState → List (ℚ × Int) → EmuState × List Event
  | s, [] => (s, [])
  | s, c :: rest =>
    let r1 := update_pin s c.1 id c.2 none
    let r2 := update_pin_seq id r1.1 rest
    (r2.1, r1.2 ++ r2.2)

/-! ## Event Channel observers (`_emit`) -/

/-- An observer callback registered via `set_reporter`; `Except.error`
models the callback raising. -/
def Reporter : Type := Event → Except String Unit

/-- `_emit`'s reporter loop: each registered reporter is called once, in
registration order, with the same event; a raised error is caught and
recorded, never propagated, and never stops the loop.  The result is
the per-reporter outcome list. -/
def reporterResults (reporters : List Reporter) (event : Event) :
    List (Except String Unit) :=
  reporters.map (fun reporter => reporter event)

/-- A store operation followed by `_emit` of each of its events to the
registered reporters: the store result is paired with the outcome lists
of the deliveries. -/
def runOpWithReporters (s : EmuState) (reporters : List Reporter)
    (op : StoreOp) : (EmuState × List Event) × List (List (Except String Unit)) :=
  let r := applyOp s op
  (r, r.2.map (reporterResults reporters))

/-! ## Association-list lemmas -/

theorem alGet_alSet_same {α β : Type} [DecidableEq α]
    (l : List (α × β)) (k : α) (v : β) : alGet (alSet l k v) k = some v := by
  simp [alGet, alSet]

theorem alGet_filter_ne {α β : Type} [DecidableEq α]
    (l : List (α × β)) (k k' : α) (h : k ≠ k') :
    alGet (l.filter (fun p => p.1 ≠ k)) k' = alGet l k' := by
  induction l with
  | nil => rfl
  | cons p rest ih =>
    cases p with
    | mk a b =>
      simp only [ne_eq, decide_not] at ih
      by_cases hp : a = k
      · subst hp
        simp [List.filter_cons, alGet, ih, h]
      · simp [List.filter_cons, hp, alGet, ih]

theorem alGet_alSet_ne {α β : Type} [DecidableEq α]
    (l : List (α × β)) (k k' : α) (v : β) (h : k ≠ k') :
    alGet (alSet l k v) k' = alGet l k' := by
  simp only [alSet, alGet, if_neg h]
  exact alGet_filter_ne l k k' h

theorem alGet_mem {α β : Type} [DecidableEq α]
    (l : List (α × β)) (k : α) (v : β) (h : alGet l k = some v) : (k, v) ∈ l := by
  induction l with
  | nil => cases h
  | cons p rest ih =>
    cases p with
    | mk a b =>
      rw [alGet] at h
      by_cases ha : a = k
      · rw [if_pos ha] at h
        cases h
        rw [ha]
        exact List.mem_cons_self _ _
      · rw [if_neg ha] at h
        exact List.mem_cons_of_mem _ (ih h)

/-! ## `update_pin` component lemmas -/

/-- The pin table written by `update_pin`, independently of throttling. -/
theorem update_pin_pins (s : EmuState) (now : ℚ) (id : String) (v : Int)
    (m : Option String) :
    (update_pin s now id v m).1.pins =
      match alGet s.pins id with
      | none =>
        alSet s.pins id
          ⟨id, (match m with
                | none => "OUT"
                | some md => if md = "" then "OUT" else md), v⟩
      | some st =>
        alSet s.pins id
          ⟨st.identifier, (match m with | none => st.mode | some md => md), v⟩ := by
  unfold update_pin
  by_cases h : PIN_EMIT_THROTTLE_MS > 0
      ∧ now - (alGet s.lastPinEmit id).getD 0 < PIN_EMIT_THROTTLE_MS
  · simp only [if_pos h]
  · simp only [if_neg h]

/-- A throttled `update_pin` emits nothing. -/
theorem update_pin_events_skip (s : EmuState) (now : ℚ) (id : String) (v : Int)
    (m : Option String) (h : now - (alGet s.lastPinEmit id).getD 0 < 1) :
    (update_pin s now id v m).2 = [] := by
  unfold update_pin
  rw [if_pos ⟨by norm_num [PIN_EMIT_THROTTLE_MS], by simpa [PIN_EMIT_THROTTLE_MS] using h⟩]

/-- A throttled `update_pin` leaves the throttle ledger alone. -/
theorem update_pin_ledger_skip (s : EmuState) (now : ℚ) (id : String) (v : Int)
    (m : Option String) (h : now - (alGet s.lastPinEmit id).getD 0 < 1) :
    (update_pin s now id v m).1.lastPinEmit = s.lastPinEmit := by
  unfold update_pin
  rw [if_pos ⟨by norm_num [PIN_EMIT_THROTTLE_MS], by simpa [PIN_EMIT_THROTTLE_MS] using h⟩]

/-- An unthrottled `update_pin` emits exactly one `pin_update` event. -/
theorem update_pin_events_emit (s : EmuState) (now : ℚ) (id : String) (v : Int)
    (m : Option String) (h : 1 ≤ now - (alGet s.lastPinEmit id).getD 0) :
    (update_pin s now id v m).2 = [Event.pinUpdate id v m] := by
  unfold update_pin
  rw [if_neg]
  intro hc
  have := hc.2
  rw [PIN_EMIT_THROTTLE_MS] at this
  linarith

/-- An unthrottled `update_pin` stamps the throttle ledger with `now`. -/
theorem update_pin_ledger_emit (s : EmuState) (now : ℚ) (id : String) (v : Int)
    (m : Option String) (h : 1 ≤ now - (alGet s.lastPinEmit id).getD 0) :
    (update_pin s now id v m).1.lastPinEmit = alSet s.lastPinEmit id now := by
  unfold update_pin
  rw [if_neg]
  intro hc
  have := hc.2
  rw [PIN_EMIT_THROTTLE_MS] at this
  linarith

/-- Whatever the throttle decides, `update_pin` stores the value. -/
theorem get_pin_value_update (s : EmuState) (now : ℚ) (id : String) (v : Int)
    (m : Option String) :
    get_pin_value (update_pin s now id v m).1 id = v := by
  rw [get_pin_value, update_pin_pins]
  cases h : alGet s.pins id with
  | none => rw [alGet_alSet_same]
  | some st => rw [alGet_alSet_same]

/-! ## `update_pin_seq` lemmas -/

theorem update_pin_seq_append (id : String) (l1 l2 : List (ℚ × Int)) :
    ∀ s : EmuState,
    update_pin_seq id s (l1 ++ l2) =
      ((update_pin_seq id (update_pin_seq id s l1).1 l2).1,
       (update_pin_seq id s l1).2 ++ (update_pin_seq id (update_pin_seq id s l1).1 l2).2) := by
  induction l1 with
  | nil => intro s; simp [update_pin_seq]
  | cons c rest ih =>
    intro s
    simp only [List.cons_append, update_pin_seq, List.append_eq, ih, List.append_assoc]

/-- A run of `update_pin` calls that all land inside the throttle window
opened at time `t` emits nothing, leaves the ledger alone, and tracks
the last written value. -/
theorem update_pin_seq_throttled (id : String) (t : ℚ) :
    ∀ (calls : List (ℚ × Int)) (s : EmuState),
    alGet s.lastPinEmit id = some t →
    (∀ c ∈ calls, c.1 - t < 1) →
    (update_pin_seq id s calls).2 = []
    ∧ (update_pin_seq id s calls).1.lastPinEmit = s.lastPinEmit
    ∧ get_pin_value (update_pin_seq id s calls).1 id
        = (calls.map Prod.snd).getLastD (get_pin_value s id) := by
  intro calls
  induction calls with
  | nil =>
    intro s _ _
    exact ⟨rfl, rfl, rfl⟩
  | cons c rest ih =>
    intro s hs hc
    have hlt : c.1 - (alGet s.lastPinEmit id).getD 0 < 1 := by
      rw [hs]
      exact hc c (List.mem_cons_self _ _)
    have hskip := update_pin_events_skip s c.1 id c.2 none hlt
    have hled := update_pin_ledger_skip s c.1 id c.2 none hlt
    have hs' : alGet (update_pin s c.1 id c.2 none).1.lastPinEmit id = some t := by
      rw [hled]; exact hs
    obtain ⟨e1, e2, e3⟩ :=
      ih (update_pin s c.1 id c.2 none).1 hs'
        (fun c' hc' => hc c' (List.mem_cons_of_mem _ hc'))
    refine ⟨?_, ?_, ?_⟩
    · simp only [update_pin_seq, hskip, e1, List.nil_append]
    · simp only [update_pin_seq, e2, hled]
    · simp only [update_pin_seq, e3, get_pin_value_update, List.map_cons,
        List.getLastD_cons]

/-- Padding-then-truncating always yields exactly `n` bytes. -/
theorem padTake_length (r : List Nat) (n : Nat) :
    ((r ++ List.replicate (n - r.length) 0).take n).length = n := by
  simp only [List.length_take, List.length_append, List.length_replicate]
  omega

/-! ## Pin-table invariant lemmas -/

theorem pinTableInv_nil : pinTableInv [] :=
  ⟨fun p hp => absurd hp (List.not_mem_nil p), List.nodup_nil⟩

theorem pinsInv_init : pinsInv initState :=
  pinTableInv_nil

theorem pinTableInv_alSet (l : List (String × PinState)) (k : String)
    (ps : PinState) (hI : pinTableInv l)
    (hv : ps.value = 0 ∨ ps.value = 1) (hm : validMode ps.mode = true) :
    pinTableInv (alSet l k ps) := by
  constructor
  · intro p hp
    rcases List.mem_cons.1 hp with rfl | hp'
    · exact ⟨hv, hm⟩
    · exact hI.1 p (List.mem_of_mem_filter hp')
  · rw [alSet, List.map_cons, List.nodup_cons]
    constructor
    · intro hk
      obtain ⟨p, hp, hpk⟩ := List.mem_map.1 hk
      have := List.of_mem_filter hp
      simp only [ne_eq, decide_not, Bool.not_eq_eq_eq_not, Bool.not_true,
        decide_eq_false_iff_not] at this
      exact this hpk
    · exact hI.2.sublist (List.Sublist.map _ (List.filter_sublist l))

/-! ## Claim theorems -/

/-- C1: if the first of a burst of `update_pin` calls for one identifier
arrives at least the throttle window after the ledger's last emission
for it, and every later call of the burst arrives within less than the
throttle window (1 ms) after the first, then exactly one `pin_update`
event is emitted, for the first call; every call of the burst still
stores its value, and `get_pin_value` afterwards returns the value of
the last call. -/
theorem throttle_burst_single_emit
    (s : EmuState) (id : String) (t1 : ℚ) (v1 : Int) (rest : List (ℚ × Int))
    (hgap : 1 ≤ t1 - (alGet s.lastPinEmit id).getD 0)
    (hwin : ∀ c ∈ rest, t1 ≤ c.1 ∧ c.1 < t1 + 1) :
    (update_pin_seq id s ((t1, v1) :: rest)).2 = [Event.pinUpdate id v1 none]
    ∧ (∀ (pre : List (ℚ × Int)) (c : ℚ × Int) (suf : List (ℚ × Int)),
        (t1, v1) :: rest = pre ++ c :: suf →
        get_pin_value (update_pin_seq id s (pre ++ [c])).1 id = c.2)
    ∧ get_pin_value (update_pin_seq id s ((t1, v1) :: rest)).1 id
        = (((t1, v1) :: rest).map Prod.snd).getLastD 0 := by
  have hemit := update_pin_events_emit s t1 id v1 none hgap
  have hled := update_pin_ledger_emit s t1 id v1 none hgap
  have hs' : alGet (update_pin s t1 id v1 none).1.lastPinEmit id = some t1 := by
    rw [hled]; exact alGet_alSet_same _ _ _
  obtain ⟨e1, _, e3⟩ :=
    update_pin_seq_throttled id t1 rest (update_pin s t1 id v1 none).1 hs'
      (fun c hc => by have := (hwin c hc).2; linarith)
  refine ⟨?_, ?_, ?_⟩
  · simp only [update_pin_seq, hemit, e1, List.append_nil]
  · intro pre c suf _
    rw [update_pin_seq_append]
    simp only [update_pin_seq, get_pin_value_update]
  · simp only [update_pin_seq, e3, get_pin_value_update, List.map_cons,
      List.getLastD_cons]

/-- Witness for C1: a burst of three calls at 1000 ms, 1000.25 ms and
1000.5 ms on a fresh store emits only the first call's event. -/
theorem throttle_burst_single_emit_w :
    (update_pin_seq "p" initState
      [((1000 : ℚ), (7 : Int)), ((4001 : ℚ) / 4, 8), ((2001 : ℚ) / 2, 9)]).2
      = [Event.pinUpdate "p" 7 none]
    ∧ get_pin_value (update_pin_seq "p" initState
        [((1000 : ℚ), (7 : Int)), ((4001 : ℚ) / 4, 8), ((2001 : ℚ) / 2, 9)]).1 "p" = 9 := by
  have h := throttle_burst_single_emit initState "p" 1000 7
      [((4001 : ℚ) / 4, 8), ((2001 : ℚ) / 2, 9)]
      (by norm_num [initState, alGet])
      (by
        intro c hc
        simp only [List.mem_cons, List.not_mem_nil, or_false] at hc
        rcases hc with rfl | rfl <;> constructor <;> norm_num)
  exact ⟨h.1, by simpa using h.2.2⟩

/-- C2: `get_i2c_response` returns (for byte-valued device addresses)
a byte sequence of exactly the requested length, whatever the bus,
memory address, auto-respond flag and configured responses, including
the `nbytes = 0` edge case on the auto-respond synthesis branches. -/
theorem i2c_response_exact_length (s : EmuState) (bus addr : Int) (n : Nat)
    (memaddr : Option Int) (h0 : 0 ≤ addr) (h256 : addr < 256) :
    ∃ r, get_i2c_response s bus addr n memaddr = some r ∧ r.length = n := by
  cases hr : alGet s.i2cResponses (i2cKey bus addr memaddr) with
  | some r =>
    exact ⟨_, by simp [get_i2c_response, hr], padTake_length r n⟩
  | none =>
    cases hauto : s.i2cAutoRespond with
    | false =>
      exact ⟨_, by simp [get_i2c_response, hr, hauto],
        padTake_length (List.replicate n 0) n⟩
    | true =>
      by_cases hwho : memaddr = some 0x75 ∨ memaddr = some 0x00
      · exact ⟨_, by simp [get_i2c_response, hr, hauto, hwho, h0, h256],
          padTake_length ([addr.toNat] ++ List.replicate (n - 1) 0) n⟩
      · exact ⟨_, by simp [get_i2c_response, hr, hauto, hwho],
          padTake_length ([1] ++ List.replicate (n - 1) 0) n⟩

/-- Witness for C2: a fresh store, bus 0, the MPU6050 address, a
WHO_AM_I memory read of 3 bytes. -/
theorem i2c_response_exact_length_w :
    ∃ r, get_i2c_response initState 0 104 3 (some 117) = some r ∧ r.length = 3 :=
  i2c_response_exact_length initState 0 104 3 (some 117) (by norm_num) (by norm_num)

/-- C3: on a bus with no registered devices, `get_i2c_devices` returns
the empty list after `set_i2c_auto_respond(False)` and the fixed
four-address fallback `[0x68, 0x3C, 0x76, 0x27]` after
`set_i2c_auto_respond(True)`; on a bus with a non-empty registered
list it returns that list regardless of the flag. -/
theorem i2c_devices_fallback (s : EmuState) (bus : Int) :
    ((alGet s.i2cDevices bus = none ∨ alGet s.i2cDevices bus = some []) →
      get_i2c_devices (set_i2c_auto_respond s false).1 bus = []
      ∧ get_i2c_devices (set_i2c_auto_respond s true).1 bus
          = [0x68, 0x3C, 0x76, 0x27])
    ∧ (∀ ds, alGet s.i2cDevices bus = some ds → ds ≠ [] →
        ∀ b, get_i2c_devices (set_i2c_auto_respond s b).1 bus = ds) := by
  constructor
  · intro hempty
    rcases hempty with h | h <;>
      simp [get_i2c_devices, set_i2c_auto_respond, h]
  · intro ds hds hne b
    simp [get_i2c_devices, set_i2c_auto_respond, hds, hne]

/-- Witness for C3: fresh store for the empty-bus halves; a store with
device 5 registered on bus 0 for the non-empty half. -/
theorem i2c_devices_fallback_w :
    (get_i2c_devices (set_i2c_auto_respond initState false).1 0 = []
      ∧ get_i2c_devices (set_i2c_auto_respond initState true).1 0
          = [0x68, 0x3C, 0x76, 0x27])
    ∧ get_i2c_devices
        (set_i2c_auto_respond (set_i2c_devices initState 0 [5]).1 false).1 0 = [5] :=
  ⟨(i2c_devices_fallback initState 0).1 (Or.inl rfl),
   (i2c_devices_fallback (set_i2c_devices initState 0 [5]).1 0).2 [5] rfl
     (by simp) false⟩

/-- C4: `reset` always produces the empty tables with auto-respond
enabled and a cleared throttle ledger, emits exactly one `reset` event
per call, is idempotent on the state, and behaves the same on the
process-start state. -/
theorem reset_idempotent (s : EmuState) :
    (reset s).2 = [Event.reset]
    ∧ (reset s).1.pins = []
    ∧ (reset s).1.adcValues = []
    ∧ (reset s).1.i2cDevices = []
    ∧ (reset s).1.i2cResponses = []
    ∧ (reset s).1.i2cAutoRespond = true
    ∧ (reset s).1.lastPinEmit = []
    ∧ (reset (reset s).1).1 = (reset s).1
    ∧ (reset (reset s).1).2 = [Event.reset]
    ∧ reset initState = ((reset s).1, [Event.reset]) :=
  ⟨rfl, rfl, rfl, rfl, rfl, rfl, rfl, rfl, rfl, rfl⟩

/-- C5 counterexample: at `freq = 2_000_000_000 > 0` the duty_ns setter
computes `period_ns = 1_000_000_000 // freq = 0` and then divides by
it, so `PWM.duty_ns(v)` raises `ZeroDivisionError` (modelled `none`)
instead of storing a duty that could be read back. -/
theorem pwm_duty_ns_div_zero_cex :
    (0 : Nat) < 2000000000 ∧ pwmDutyNsSet 2000000000 100 = none :=
  ⟨by norm_num, rfl⟩

/-- C5 amended: for `0 < freq ≤ 1_000_000_000` (so that
`period_ns = 1e9 // freq` is nonzero and the conversions are defined),
setting the duty via `duty_ns(v)` and reading `duty_ns()` back yields
`r ≤ v` with `65535 * v < 65535 * r + period_ns + 65535`, the rounding
tolerance implied by the two floor conversions; and for a 16-bit duty
`w ≤ 65535`, setting `duty_u16(w)`, reading `duty_ns()`, setting that
back via `duty_ns` and reading `duty_u16()` yields `u ≤ w` with
`w * period_ns < u * period_ns + period_ns + 65535`. -/
theorem pwm_duty_roundtrip (freq v w : Nat)
    (hf : 0 < freq) (hfle : freq ≤ 1000000000) (hw : w ≤ 65535) :
    (∀ u, pwmDutyNsSet freq v = some u →
      pwmDutyNsGet freq u ≤ v
      ∧ 65535 * v < 65535 * pwmDutyNsGet freq u + 1000000000 / freq + 65535)
    ∧ (∀ u, pwmDutyNsSet freq (pwmDutyNsGet freq (pwmDutyU16Set w)) = some u →
        u ≤ w
        ∧ w * (1000000000 / freq)
            < u * (1000000000 / freq) + 1000000000 / freq + 65535) := by
  have hp : 0 < 1000000000 / freq := Nat.div_pos hfle hf
  have hper : (if freq > 0 then 1000000000 / freq else 1) = 1000000000 / freq :=
    if_pos hf
  have hper' : (if freq > 0 then 1000000000 / freq else 0) = 1000000000 / freq :=
    if_pos hf
  constructor
  · intro u hu
    rw [pwmDutyNsSet] at hu
    rw [hper, if_neg (Nat.pos_iff_ne_zero.1 hp)] at hu
    cases hu
    rw [pwmDutyNsGet, hper']
    constructor
    · calc (v * 65535 / (1000000000 / freq)) * (1000000000 / freq) / 65535
          ≤ v * 65535 / 65535 :=
            Nat.div_le_div_right (Nat.div_mul_le_self _ _)
        _ = v := Nat.mul_div_cancel v (by norm_num)
    · have h1 : v * 65535
          < (1000000000 / freq) * (v * 65535 / (1000000000 / freq))
            + (1000000000 / freq) := by
        have := Nat.div_add_mod (v * 65535) (1000000000 / freq)
        have := Nat.mod_lt (v * 65535) hp
        omega
      have h2 : (v * 65535 / (1000000000 / freq)) * (1000000000 / freq)
          < 65535 * ((v * 65535 / (1000000000 / freq)) * (1000000000 / freq) / 65535)
            + 65535 := by
        have := Nat.div_add_mod
          ((v * 65535 / (1000000000 / freq)) * (1000000000 / freq)) 65535
        have : ((v * 65535 / (1000000000 / freq)) * (1000000000 / freq)) % 65535
            < 65535 := Nat.mod_lt _ (by norm_num)
        omega
      nlinarith [h1, h2]
  · intro u hu
    rw [pwmDutyNsSet] at hu
    rw [hper, if_neg (Nat.pos_iff_ne_zero.1 hp)] at hu
    cases hu
    rw [pwmDutyNsGet, hper']
    have hw0 : pwmDutyU16Set w = w := by
      rw [pwmDutyU16Set, min_eq_right hw]
      exact Nat.zero_max w
    rw [hw0]
    constructor
    · calc (w * (1000000000 / freq) / 65535) * 65535 / (1000000000 / freq)
          ≤ w * (1000000000 / freq) / (1000000000 / freq) :=
            Nat.div_le_div_right (Nat.div_mul_le_self _ _)
        _ = w := Nat.mul_div_cancel w hp
    · have h1 : w * (1000000000 / freq)
          < 65535 * (w * (1000000000 / freq) / 65535) + 65535 := by
        have := Nat.div_add_mod (w * (1000000000 / freq)) 65535
        have : (w * (1000000000 / freq)) % 65535 < 65535 :=
          Nat.mod_lt _ (by norm_num)
        omega
      have h2 : (w * (1000000000 / freq) / 65535) * 65535
          < (1000000000 / freq)
              * ((w * (1000000000 / freq) / 65535) * 65535 / (1000000000 / freq))
            + (1000000000 / freq) := by
        have := Nat.div_add_mod ((w * (1000000000 / freq) / 65535) * 65535)
          (1000000000 / freq)
        have := Nat.mod_lt ((w * (1000000000 / freq) / 65535) * 65535) hp
        omega
      nlinarith [h1, h2]

/-- C6 counterexample: the store itself never clamps, so one
`update_pin` call with value 5 reaches a state whose pin table violates
the spec's `value ∈ {0,1}` invariant (and a mode argument outside the
four names would likewise be stored verbatim). -/
theorem pin_invariant_cex :
    ¬ pinsInv (update_pin initState 1000 "p" 5 none).1 := by
  simp [update_pin, initState, alGet, alSet, PIN_EMIT_THROTTLE_MS, pinsInv,
    pinTableInv]

/-- C6 amended: the PinState invariant (value in {0,1}, mode one of the
four enumerated names, identifiers keying the table uniquely) is
preserved by every store operation provided `update_pin` is called
with a binary value and either no mode or one of the four names, and
`register_pin` with one of the four names — which is how the Pin façade
calls them.  Mode follows last-writer-wins: after `register_pin` or a
moded `update_pin`, the stored mode is the one just written. -/
theorem pin_invariant_amended :
    (∀ (s : EmuState) (op : StoreOp),
      pinsInv s → opArgsOK op → pinsInv (applyOp s op).1)
    ∧ (∀ (s : EmuState) (id mode : String) (ini : Option Int),
        (alGet (register_pin s id mode ini).1.pins id).map PinState.mode
          = some mode)
    ∧ (∀ (s : EmuState) (now : ℚ) (id : String) (v : Int) (m : String),
        validMode m = true →
        (alGet (update_pin s now id v (some m)).1.pins id).map PinState.mode
          = some m) := by
  refine ⟨?_, ?_, ?_⟩
  · intro s op hI hargs
    cases op with
    | opReset => exact pinTableInv_nil
    | opRegisterPin id mode ini =>
      refine pinTableInv_alSet s.pins id _ hI ?_ hargs
      cases ini with
      | none => exact Or.inl rfl
      | some i =>
        by_cases hi : i = 0
        · simp [hi]
        · simp [hi]
    | opUpdatePin now id v m =>
      show pinTableInv (update_pin s now id v m).1.pins
      rw [update_pin_pins]
      cases hg : alGet s.pins id with
      | none =>
        refine pinTableInv_alSet s.pins id _ hI hargs.1 ?_
        rcases hargs.2 with rfl | ⟨md, rfl, hmd⟩
        · rfl
        · show validMode (if md = "" then "OUT" else md) = true
          by_cases hmd0 : md = ""
          · rw [if_pos hmd0]; rfl
          · rw [if_neg hmd0]; exact hmd
      | some st =>
        refine pinTableInv_alSet s.pins id _ hI hargs.1 ?_
        rcases hargs.2 with rfl | ⟨md, rfl, hmd⟩
        · exact (hI.1 (id, st) (alGet_mem s.pins id st hg)).2
        · exact hmd
    | opSetAdcValue id v => exact hI
    | opClearAdcValue id => exact hI
    | opSetI2cDevices bus addrs => exact hI
    | opRegisterI2cDevice bus addr => exact hI
    | opSetI2cAutoRespond b => exact hI
    | opSetI2cResponse bus addr data memaddr => exact hI
    | opEmitEvent t => exact hI
  · intro s id mode ini
    show (alGet (alSet s.pins id _) id).map PinState.mode = some mode
    rw [alGet_alSet_same]
    rfl
  · intro s now id v m hm
    rw [update_pin_pins]
    have hne : ¬ m = "" := by
      intro h
      rw [h] at hm
      exact absurd hm (by decide)
    cases hg : alGet s.pins id with
    | none =>
      rw [alGet_alSet_same]
      show some (if m = "" then "OUT" else m) = some m
      rw [if_neg hne]
    | some st =>
      rw [alGet_alSet_same]
      rfl

/-- Witness for C6: one well-formed `update_pin` on the fresh store. -/
theorem pin_invariant_amended_w :
    pinsInv (applyOp initState (StoreOp.opUpdatePin 1000 "p" 1 none)).1 :=
  pin_invariant_amended.1 initState (StoreOp.opUpdatePin 1000 "p" 1 none)
    pinsInv_init ⟨Or.inr rfl, Or.inl rfl⟩

/-- C7 counterexample: running the spec's pin scenario back-to-back
within one throttle window (all store calls in the same millisecond,
here at 1000 ms) makes the read's own `pin_update` emission open the
window, so `value(1)` emits nothing and `toggle()` emits nothing — in
particular no `pin_update` with value 1 and none with value 0. -/
theorem pin_scenario_throttled_cex :
    (pinWrite
      (pinValueRead (pinConstruct initState 1000 "25" 1 none).1 1000 "25").1.1
      1000 "25" 1).2 = []
    ∧ (pinToggle
        (pinWrite
          (pinValueRead (pinConstruct initState 1000 "25" 1 none).1 1000 "25").1.1
          1000 "25" 1).1
        1000 1000 "25").2 = [] := by
  constructor <;>
    simp [pinConstruct, pinValueRead, pinWrite, pinToggle, register_pin, modeName,
      update_pin, get_pin_value, alGet, alSet, initState, PIN_EMIT_THROTTLE_MS]

/-- C7 amended: the scenario holds once each store update leaves the
previous emission's throttle window: constructing Pin "25" as OUT with
value None, a first no-argument `value()` read at `t1 ≥ 1` returns 0
(and emits the read's `pin_update`), `value(1)` at `t2 ≥ t1 + 1` emits
`pin_update` with value 1, and `toggle()` whose internal read runs at
`t3 ≥ t2 + 1` and internal write at `t4 ≥ t3 + 1` emits `pin_update`
with value 1 (mode IN, from the read) and then with value 0. -/
theorem pin_scenario_amended (t1 t2 t3 t4 : ℚ)
    (h1 : 1 ≤ t1) (h2 : t1 + 1 ≤ t2) (h3 : t2 + 1 ≤ t3) (h4 : t3 + 1 ≤ t4) :
    (pinValueRead (pinConstruct initState t1 "25" 1 none).1 t1 "25").2 = 0
    ∧ (pinValueRead (pinConstruct initState t1 "25" 1 none).1 t1 "25").1.2
        = [Event.pinUpdate "25" 0 (some "IN")]
    ∧ (pinWrite
        (pinValueRead (pinConstruct initState t1 "25" 1 none).1 t1 "25").1.1
        t2 "25" 1).2 = [Event.pinUpdate "25" 1 (some "OUT")]
    ∧ (pinToggle
        (pinWrite
          (pinValueRead (pinConstruct initState t1 "25" 1 none).1 t1 "25").1.1
          t2 "25" 1).1
        t3 t4 "25").2
        = [Event.pinUpdate "25" 1 (some "IN"), Event.pinUpdate "25" 0 (some "OUT")] := by
  have n1 : ¬ (t1 < 1) := by linarith
  have n2 : ¬ (t2 - t1 < 1) := by linarith
  have n3 : ¬ (t3 - t2 < 1) := by linarith
  have n4 : ¬ (t4 - t3 < 1) := by linarith
  refine ⟨?_, ?_, ?_, ?_⟩ <;>
    simp [pinConstruct, pinValueRead, pinWrite, pinToggle, register_pin, modeName,
      update_pin, get_pin_value, alGet, alSet, initState, PIN_EMIT_THROTTLE_MS,
      n1, n2, n3, n4]

/-- Witness for C7 amended: times 1000, 2000, 3000 and 3001 ms. -/
theorem pin_scenario_amended_w :
    (pinValueRead (pinConstruct initState 1000 "25" 1 none).1 1000 "25").2 = 0
    ∧ (pinValueRead (pinConstruct initState 1000 "25" 1 none).1 1000 "25").1.2
        = [Event.pinUpdate "25" 0 (some "IN")]
    ∧ (pinWrite
        (pinValueRead (pinConstruct initState 1000 "25" 1 none).1 1000 "25").1.1
        2000 "25" 1).2 = [Event.pinUpdate "25" 1 (some "OUT")]
    ∧ (pinToggle
        (pinWrite
          (pinValueRead (pinConstruct initState 1000 "25" 1 none).1 1000 "25").1.1
          2000 "25" 1).1
        3000 3001 "25").2
        = [Event.pinUpdate "25" 1 (some "IN"), Event.pinUpdate "25" 0 (some "OUT")] :=
  pin_scenario_amended 1000 2000 3000 3001 (by norm_num) (by norm_num)
    (by norm_num) (by norm_num)

/-- Witness for C5: freq 1000 Hz (period 1e6 ns), duty 500000 ns in,
and 16-bit duty 30000. -/
theorem pwm_duty_roundtrip_w :
    (pwmDutyNsGet 1000 32767 ≤ 500000
      ∧ 65535 * 500000
          < 65535 * pwmDutyNsGet 1000 32767 + 1000000000 / 1000 + 65535)
    ∧ (29999 ≤ 30000
      ∧ 30000 * (1000000000 / 1000)
          < 29999 * (1000000000 / 1000) + 1000000000 / 1000 + 65535) :=
  ⟨(pwm_duty_roundtrip 1000 500000 30000 (by norm_num) (by norm_num)
      (by norm_num)).1 32767 rfl,
   (pwm_duty_roundtrip 1000 500000 30000 (by norm_num) (by norm_num)
      (by norm_num)).2 29999 rfl⟩

/-- C8: the fill itself broadcasts (10, 20, 30) to all `n` slots, but
`NeoPixel.__init__` and `NeoPixel.write()` both call `state.emit`,
an attribute module `state` does not define, so construction and
`write()` raise `AttributeError` and the promised single
`neopixel_write` event is never emitted. -/
theorem neopixel_write_attribute_error :
    neopixelMk "25" 8 3
      = Except.error "AttributeError: module state has no attribute emit"
    ∧ (∀ np : NeoPixelStrip,
        neopixelWriteOp np
          = Except.error "AttributeError: module state has no attribute emit")
    ∧ neopixelFill ⟨"25", 8, 3, List.replicate 8 [0, 0, 0]⟩ [10, 20, 30]
        = Except.ok ⟨"25", 8, 3, List.replicate 8 [10, 20, 30]⟩
    ∧ (List.replicate 8 [10, 20, 30]).length = 8
    ∧ ∀ px ∈ List.replicate 8 [10, 20, 30], px = [10, 20, 30] := by
  refine ⟨rfl, fun np => rfl, rfl, rfl, ?_⟩
  intro px hpx
  exact List.eq_of_mem_replicate hpx

/-- C9: `_emit`'s delivery loop calls every registered reporter exactly
once, in order, with the same event; a reporter that raises (here
reporter `i`) is caught — its error shows up only in the outcome list,
is never propagated, and does not prevent any later reporter from
being invoked; and the store state produced by the operation is the
same as without any reporters. -/
theorem observer_error_isolated (reporters : List Reporter) (event : Event)
    (i : Nat) (hi : i < reporters.length) (msg : String)
    (hraise : reporters.get ⟨i, hi⟩ event = Except.error msg) :
    (reporterResults reporters event).length = reporters.length
    ∧ (∀ j (hj : j < reporters.length),
        (reporterResults reporters event).get? j
          = some (reporters.get ⟨j, hj⟩ event))
    ∧ (∀ (s : EmuState) (op : StoreOp),
        (runOpWithReporters s reporters op).1 = applyOp s op) := by
  refine ⟨List.length_map _ _, ?_, fun s op => rfl⟩
  intro j hj
  rw [reporterResults, List.get?_map, List.get?_eq_get hj]
  rfl

/-- Witness for C9: two reporters, the first of which raises. -/
theorem observer_error_isolated_w :
    (reporterResults
      [(fun _ => Except.error "boom" : Reporter), (fun _ => Except.ok () : Reporter)]
      Event.reset).length = 2 :=
  (observer_error_isolated
    [(fun _ => Except.error "boom" : Reporter), (fun _ => Except.ok () : Reporter)]
    Event.reset 0 (by norm_num) "boom" rfl).1

/-- C10: a no-argument `Pin.value()` read on a registered pin returns
the stored value and leaves it unchanged, but is not side-effect free:
it rewrites the stored mode to "IN" whatever mode the pin had, and,
when the throttle window has passed, emits a `pin_update` event
carrying mode "IN" and the stored value. -/
theorem pin_read_overwrites_mode (s : EmuState) (now : ℚ) (id : String)
    (st : PinState) (hreg : alGet s.pins id = some st) :
    (pinValueRead s now id).2 = st.value
    ∧ alGet (pinValueRead s now id).1.1.pins id
        = some ⟨st.identifier, "IN", st.value⟩
    ∧ get_pin_value (pinValueRead s now id).1.1 id = st.value
    ∧ (1 ≤ now - (alGet s.lastPinEmit id).getD 0 →
        (pinValueRead s now id).1.2 = [Event.pinUpdate id st.value (some "IN")]) := by
  have hval : get_pin_value s id = st.value := by
    rw [get_pin_value, hreg]
  refine ⟨hval, ?_, ?_, ?_⟩
  · show alGet (update_pin s now id (get_pin_value s id) (some "IN")).1.pins id = _
    rw [update_pin_pins, hreg, alGet_alSet_same, hval]
  · show get_pin_value (update_pin s now id (get_pin_value s id) (some "IN")).1 id = _
    rw [get_pin_value_update, hval]
  · intro hgap
    show (update_pin s now id (get_pin_value s id) (some "IN")).2 = _
    rw [update_pin_events_emit s now id _ _ hgap, hval]

/-- Witness for C10: pin "7" registered as OUT with value 1, read at
1000 ms on a fresh ledger. -/
theorem pin_read_overwrites_mode_w :
    (pinValueRead (register_pin initState "7" "OUT" (some 1)).1 1000 "7").2 = 1
    ∧ alGet (pinValueRead (register_pin initState "7" "OUT" (some 1)).1
        1000 "7").1.1.pins "7" = some ⟨"7", "IN", 1⟩ := by
  have h := pin_read_overwrites_mode (register_pin initState "7" "OUT" (some 1)).1
    1000 "7" ⟨"7", "OUT", 1⟩ rfl
  exact ⟨h.1, h.2.1⟩

end Emu
